import Mathlib

/-!
Verification of the spreadsheet-ingestion core of the casino-rewards
repository.  The definitions below are a shallow embedding of
`supabase/functions/parse-spreadsheet/index.ts`: spreadsheet cell values
are modelled by `CellValue`, JavaScript numbers by `JsNum` (exact
rationals plus NaN and the two infinities; decimal-literal parsing is
exact rather than rounded to binary floating point, which is irrelevant
for the properties proved here since they depend only on null-ness and on
exactly representable integer values), and the HTTP handler by a pure
function from its request-shaped inputs and a database-outcome
environment to a response together with the ordered trace of database
operations it issued.
-/

/-- A JavaScript number: NaN, the infinities, or a finite value modelled
as an exact rational. -/
inductive JsNum where
  | nan
  | posInf
  | negInf
  | num (q : Rat)
deriving DecidableEq

/-- A raw spreadsheet cell value as seen by the TypeScript code: the
JavaScript values that can appear in a parsed row.  `vDate` carries the
epoch-milliseconds time value of a JS `Date` object. -/
inductive CellValue where
  | vNull
  | vUndefined
  | vStr (s : String)
  | vNum (n : JsNum)
  | vBool (b : Bool)
  | vDate (ms : Int)
deriving DecidableEq

/-- Rational value of an integer.  The arithmetic helpers below
(`intToRat`, `qNeg`, `qAdd`, `qMul`, `qSub`, `qAbs`, `qMulPow10`) are
kernel-reducible implementations of the corresponding field operations
on `Rat`, used inside executable definitions; lemmas later in the file
identify each with the Mathlib operation. -/
def intToRat (n : Int) : Rat := mkRat n 1

/-- Negation on rationals. -/
def qNeg (a : Rat) : Rat := mkRat (-a.num) a.den

/-- Addition on rationals. -/
def qAdd (a b : Rat) : Rat := mkRat (a.num * (b.den : Int) + b.num * (a.den : Int)) (a.den * b.den)

/-- Multiplication on rationals. -/
def qMul (a b : Rat) : Rat := mkRat (a.num * b.num) (a.den * b.den)

/-- Subtraction on rationals. -/
def qSub (a b : Rat) : Rat := qAdd a (qNeg b)

/-- Absolute value on rationals. -/
def qAbs (a : Rat) : Rat := mkRat a.num.natAbs a.den

/-- Scaling of a rational by an integer power of ten. -/
def qMulPow10 (m : Rat) (e : Int) : Rat :=
  if 0 ≤ e then mkRat (m.num * (10 : Int) ^ e.toNat) m.den
  else mkRat m.num (m.den * 10 ^ (-e).toNat)

/-- JavaScript comparison `x <= 0` on a number: false for NaN. -/
def jsLeZero : JsNum → Bool
  | .nan => false
  | .posInf => false
  | .negInf => true
  | .num q => decide (q ≤ 0)

/-- JavaScript addition on numbers (NaN and infinity propagation). -/
def jsAdd : JsNum → JsNum → JsNum
  | .nan, _ => .nan
  | _, .nan => .nan
  | .posInf, .negInf => .nan
  | .negInf, .posInf => .nan
  | .posInf, _ => .posInf
  | .negInf, _ => .negInf
  | .num _, .posInf => .posInf
  | .num _, .negInf => .negInf
  | .num a, .num b => .num (qAdd a b)

/-- JavaScript multiplication on numbers (NaN and infinity propagation,
infinity times zero is NaN). -/
def jsMul : JsNum → JsNum → JsNum
  | .nan, _ => .nan
  | _, .nan => .nan
  | .posInf, .posInf => .posInf
  | .posInf, .negInf => .negInf
  | .negInf, .posInf => .negInf
  | .negInf, .negInf => .posInf
  | .posInf, .num q => if q = 0 then .nan else if 0 < q then .posInf else .negInf
  | .negInf, .num q => if q = 0 then .nan else if 0 < q then .negInf else .posInf
  | .num q, .posInf => if q = 0 then .nan else if 0 < q then .posInf else .negInf
  | .num q, .negInf => if q = 0 then .nan else if 0 < q then .negInf else .posInf
  | .num a, .num b => .num (qMul a b)

/-- JavaScript truthiness of a cell value: null, undefined, the empty
string, the number 0, NaN and false are falsy; objects (Dates) are
always truthy. -/
def truthy : CellValue → Bool
  | .vNull => false
  | .vUndefined => false
  | .vStr s => !(s = "")
  | .vNum .nan => false
  | .vNum .posInf => true
  | .vNum .negInf => true
  | .vNum (.num q) => !(q = 0)
  | .vBool b => b
  | .vDate _ => true

/-- Drop leading whitespace characters from a character list. -/
def dropLeadingWs : List Char → List Char
  | [] => []
  | c :: cs => if c.isWhitespace then dropLeadingWs cs else c :: cs

/-- JavaScript string trimming, modelled over the ASCII whitespace
characters recognised by `Char.isWhitespace`. -/
def jsTrim (s : String) : String :=
  String.mk ((dropLeadingWs (dropLeadingWs s.toList).reverse).reverse)

/-- Value of one digit character in the given radix (decimal digits plus
the hexadecimal letters), or none when the character is not a digit of
that radix. -/
def radixDigitVal (radix : Nat) (c : Char) : Option Nat :=
  let v :=
    if c.isDigit then some (c.toNat - 48)
    else if 97 ≤ c.toNat ∧ c.toNat ≤ 102 then some (c.toNat - 87)
    else if 65 ≤ c.toNat ∧ c.toNat ≤ 70 then some (c.toNat - 55)
    else none
  match v with
  | some d => if d < radix then some d else none
  | none => none

/-- Value of a nonempty digit string in the given radix, or none when it
is empty or contains a character outside the radix. -/
def radixVal (radix : Nat) (cs : List Char) : Option Nat :=
  if cs.isEmpty then none
  else cs.foldlM (fun a c => (radixDigitVal radix c).map (fun d => a * radix + d)) 0

/-- Digit-string value where the empty string counts as zero; callers
check separately that every character is a digit. -/
def decDigitsVal0 (cs : List Char) : Nat :=
  cs.foldl (fun a c => a * 10 + (c.toNat - 48)) 0

/-- Parse the mantissa part of a JavaScript decimal numeric literal:
`digits`, `digits.digits`, `digits.` or `.digits`. -/
def parseMantissa (cs : List Char) : Option Rat :=
  let ip := cs.takeWhile (fun c => !(c = '.'))
  let rest := cs.dropWhile (fun c => !(c = '.'))
  match rest with
  | [] => (radixVal 10 ip).map (fun n => (n : Rat))
  | _ :: frac =>
    if frac.any (fun c => c = '.') then none
    else if ip.isEmpty && frac.isEmpty then none
    else if !(ip.all Char.isDigit) || !(frac.all Char.isDigit) then none
    else some (mkRat (decDigitsVal0 ip * 10 ^ frac.length + decDigitsVal0 frac) (10 ^ frac.length))

/-- Parse the exponent suffix of a decimal literal (after the `e` has
been removed): an optional sign followed by at least one digit. -/
def parseExponent (cs : List Char) : Option Int :=
  match cs with
  | '+' :: ds => (radixVal 10 ds).map (fun n => (n : Int))
  | '-' :: ds => (radixVal 10 ds).map (fun n => -(n : Int))
  | ds => (radixVal 10 ds).map (fun n => (n : Int))

/-- Parse an unsigned JavaScript decimal numeric literal, exponent
included. -/
def parseDecLit (cs : List Char) : Option Rat :=
  let mant := cs.takeWhile (fun c => !(c = 'e' || c = 'E'))
  let rest := cs.dropWhile (fun c => !(c = 'e' || c = 'E'))
  match rest with
  | [] => parseMantissa mant
  | _ :: es =>
    match parseMantissa mant, parseExponent es with
    | some m, some e => some (qMulPow10 m e)
    | _, _ => none

/-- ECMAScript string-to-number conversion: trim, empty string to 0,
radix-prefixed integer literals, optionally signed `Infinity` or decimal
literal, anything else NaN. -/
def strToNumber (s : String) : JsNum :=
  let t := (jsTrim s).toList
  if t.isEmpty then .num 0
  else if t.take 2 = ['0', 'x'] || t.take 2 = ['0', 'X'] then
    match radixVal 16 (t.drop 2) with
    | some n => .num (n : Rat)
    | none => .nan
  else if t.take 2 = ['0', 'b'] || t.take 2 = ['0', 'B'] then
    match radixVal 2 (t.drop 2) with
    | some n => .num (n : Rat)
    | none => .nan
  else if t.take 2 = ['0', 'o'] || t.take 2 = ['0', 'O'] then
    match radixVal 8 (t.drop 2) with
    | some n => .num (n : Rat)
    | none => .nan
  else
    let isNeg : Bool := match t with
      | '-' :: _ => true
      | _ => false
    let body := match t with
      | '-' :: rest => rest
      | '+' :: rest => rest
      | _ => t
    if body = "Infinity".toList then (if isNeg then .negInf else .posInf)
    else
      match parseDecLit body with
      | some q => .num (if isNeg then qNeg q else q)
      | none => .nan

/-- ECMAScript `Number(value)` on a cell value. -/
def jsToNumber : CellValue → JsNum
  | .vNull => .num 0
  | .vUndefined => .nan
  | .vBool b => .num (if b then 1 else 0)
  | .vNum n => n
  | .vStr s => strToNumber s
  | .vDate ms => .num (intToRat ms)

/-- Proleptic Gregorian calendar date. -/
structure Civil where
  year : Int
  month : Int
  day : Int
deriving DecidableEq

/-- Convert a day count relative to 1970-01-01 into a Gregorian calendar
date; this is the arithmetic the ECMAScript `getUTCFullYear`,
`getUTCMonth` and `getUTCDate` accessors specify. -/
def civilFromDays (z0 : Int) : Civil :=
  let z := z0 + 719468
  let era := Int.ediv z 146097
  let doe := z - era * 146097
  let yoe := Int.ediv (doe - Int.ediv doe 1460 + Int.ediv doe 36524 - Int.ediv doe 146096) 365
  let y := yoe + era * 400
  let doy := doe - (365 * yoe + Int.ediv yoe 4 - Int.ediv yoe 100)
  let mp := Int.ediv (5 * doy + 2) 153
  let d := doy - Int.ediv (153 * mp + 2) 5 + 1
  let m := mp + (if mp < 10 then 3 else -9)
  ⟨y + (if m ≤ 2 then 1 else 0), m, d⟩

/-- UTC calendar date of an epoch-milliseconds time value. -/
def getUTCCivil (t : Int) : Civil := civilFromDays (Int.ediv t 86400000)

/-- Truncation of a rational toward zero, as ECMAScript `ToInteger`. -/
def ratTrunc (q : Rat) : Int := Int.tdiv q.num (q.den : Int)

/-- ECMAScript `TimeClip` composed with `getTime`: the time value stored
by `new Date(ms)`, or none when the `Date` is invalid (NaN, infinite or
out-of-range argument). -/
def timeClip : JsNum → Option Int
  | .nan => none
  | .posInf => none
  | .negInf => none
  | .num q => if (8640000000000000 : Rat) < qAbs q then none else some (ratTrunc q)

/-- String of a nonnegative integer left-padded with zeros to two
digits, as `padStart(2, "0")` on the rendered number. -/
def pad2 (n : Int) : String :=
  let s := toString n
  if s.length < 2 then "0" ++ s else s

/-- Epoch milliseconds of `Date.UTC(1899, 11, 30)`, Excel day zero. -/
def excelEpochMs : Int := -2209161600000

/-- The `YYYY-MM-DD` rendering of index.ts lines 61-64: the year as
printed, month and day left-padded to two digits. -/
def formatCivil (c : Civil) : String :=
  toString c.year ++ "-" ++ pad2 c.month ++ "-" ++ pad2 c.day

/-- Embedding of `excelSerialDateToYYYYMMDD` (index.ts lines 49-65):
non-numbers yield null, serials at most 0 yield null, otherwise the
serial is scaled to milliseconds past the Excel epoch and the UTC
calendar date of that instant is rendered as `YYYY-MM-DD`; an invalid
date computation yields null. -/
def excelSerialDateToYYYYMMDD (serial : CellValue) : Option String :=
  match serial with
  | .vNum jn =>
    if jsLeZero jn then none
    else
      match timeClip (jsAdd (.num (intToRat excelEpochMs)) (jsMul jn (.num 86400000))) with
      | none => none
      | some t => some (formatCivil (getUTCCivil t))
  | _ => none

/-- String of a nonnegative integer left-padded with zeros to the given
width. -/
def padTo (w : Nat) (n : Int) : String :=
  let s := toString n
  if s.length < w then String.mk (List.replicate (w - s.length) '0') ++ s else s

/-- Date part of ECMAScript `toISOString`: four-digit years in 0..9999,
signed six-digit expanded years otherwise. -/
def isoDatePart (t : Int) : String :=
  let c := getUTCCivil t
  let ys :=
    if 0 ≤ c.year ∧ c.year ≤ 9999 then padTo 4 c.year
    else (if c.year < 0 then "-" else "+") ++ padTo 6 |c.year|
  ys ++ "-" ++ pad2 c.month ++ "-" ++ pad2 c.day

/-- Embedding of the date expression at index.ts line 171/217: a JS
`Date` cell is rendered through `toISOString().split("T")[0]`, any other
cell goes through `excelSerialDateToYYYYMMDD`. -/
def wagerDateOf (v : CellValue) : Option String :=
  match v with
  | .vDate ms => some (isoDatePart ms)
  | _ => excelSerialDateToYYYYMMDD v

/-- Embedding of `safeToNumber` (index.ts lines 35-39): null, undefined
and the empty string yield null, otherwise `Number(value)`, with NaN
mapped to null. -/
def safeToNumber (value : CellValue) : Option JsNum :=
  if value = .vNull ∨ value = .vUndefined ∨ value = .vStr "" then none
  else
    let num := jsToNumber value
    if num = .nan then none else some num

/-- Decimal rendering of a finite JavaScript number.  JavaScript renders
doubles in shortest round-trip decimal form; this model renders the
exact rational instead, with a 25-digit cut-off for nonterminating
expansions.  Only emptiness and whitespace-freeness of the result matter
to the properties proved in this file. -/
def fracDigits (fuel : Nat) (f : Rat) : String :=
  match fuel with
  | 0 => ""
  | fuel + 1 =>
    if f = 0 then ""
    else
      let f10 := qMul f 10
      let d := f10.floor
      toString d ++ fracDigits fuel (qSub f10 (intToRat d))

/-- Rendering of a finite JavaScript number as a string. -/
def ratToDecimalString (q : Rat) : String :=
  let sign := if q < 0 then "-" else ""
  let a := qAbs q
  let ip := a.floor
  let frac := qSub a (intToRat ip)
  if frac = 0 then sign ++ toString ip
  else sign ++ toString ip ++ "." ++ fracDigits 25 frac

/-- ECMAScript rendering of any number as a string. -/
def jsNumToString : JsNum → String
  | .nan => "NaN"
  | .posInf => "Infinity"
  | .negInf => "-Infinity"
  | .num q => ratToDecimalString q

/-- Month abbreviation used by `Date.prototype.toString`. -/
def monthAbbrev (m : Int) : String :=
  if m = 1 then "Jan" else if m = 2 then "Feb" else if m = 3 then "Mar"
  else if m = 4 then "Apr" else if m = 5 then "May" else if m = 6 then "Jun"
  else if m = 7 then "Jul" else if m = 8 then "Aug" else if m = 9 then "Sep"
  else if m = 10 then "Oct" else if m = 11 then "Nov" else "Dec"

/-- Weekday abbreviation used by `Date.prototype.toString`; the index is
days since 1970-01-01 shifted so that 0 is Sunday. -/
def weekdayAbbrev (w : Int) : String :=
  if w = 0 then "Sun" else if w = 1 then "Mon" else if w = 2 then "Tue"
  else if w = 3 then "Wed" else if w = 4 then "Thu" else if w = 5 then "Fri"
  else "Sat"

/-- ECMAScript `String(dateObject)` with the host timezone modelled as
UTC (the deployment environment of the function). -/
def jsDateToString (ms : Int) : String :=
  let dayNum := Int.ediv ms 86400000
  let c := civilFromDays dayNum
  let msOfDay := Int.emod ms 86400000
  let hh := Int.ediv msOfDay 3600000
  let mm := Int.emod (Int.ediv msOfDay 60000) 60
  let ss := Int.emod (Int.ediv msOfDay 1000) 60
  weekdayAbbrev (Int.emod (dayNum + 4) 7) ++ " " ++ monthAbbrev c.month ++ " " ++
    pad2 c.day ++ " " ++ toString c.year ++ " " ++ pad2 hh ++ ":" ++ pad2 mm ++ ":" ++
    pad2 ss ++ " GMT+0000 (Coordinated Universal Time)"

/-- ECMAScript `String(value)` on a cell value. -/
def jsToString : CellValue → String
  | .vNull => "null"
  | .vUndefined => "undefined"
  | .vBool b => if b then "true" else "false"
  | .vStr s => s
  | .vNum n => jsNumToString n
  | .vDate ms => jsDateToString ms

/-- Embedding of `safeToString` (index.ts lines 42-45): null and
undefined yield null, otherwise the value is stringified and trimmed,
and an empty trimmed result is mapped to null by the `|| null`. -/
def safeToString (value : CellValue) : Option String :=
  if value = .vNull ∨ value = .vUndefined then none
  else
    let s := jsTrim (jsToString value)
    if s = "" then none else some s

/-- Embedding of the `WagerRecord` interface (index.ts lines 8-20). -/
structure WagerRecord where
  user_id : String
  wager_date : Option String
  casino_name : Option String
  game_played : Option String
  bet_size : Option JsNum
  num_plays : Option JsNum
  ending_balance : Option JsNum
  total_wagered : Option JsNum
  total_won : Option JsNum
  net_result : Option JsNum
  rtp : Option JsNum
deriving DecidableEq

/-- Embedding of the `TransactionRecord` interface (index.ts lines
22-32). -/
structure TransactionRecord where
  user_id : String
  transaction_date : Option String
  casino_name : Option String
  type : Option String
  amount_spent : Option JsNum
  redemption_request : Option JsNum
  after_playthrough_value : Option JsNum
  cc_points : Option JsNum
  tax_implications : Option JsNum
deriving DecidableEq

/-- JavaScript indexing `row[i]` on an array of cells: out-of-range
positions read as undefined. -/
def cellAt (row : List CellValue) (i : Nat) : CellValue :=
  row.getD i .vUndefined

/-- Strict-equality test `cell === null || cell === ""` from the blank
row checks at index.ts lines 158 and 207. -/
def isNullOrEmptyCell (c : CellValue) : Bool :=
  c = .vNull || c = .vStr ""

/-- Construction of one wager record from a raw row (index.ts lines
166-181): a fixed positional column contract with per-field coercion,
and the owner identifier taken from the authenticated user. -/
def mkWager (userId : String) (row : List CellValue) : WagerRecord :=
  { user_id := userId
    wager_date := wagerDateOf (cellAt row 0)
    casino_name := safeToString (cellAt row 1)
    game_played := safeToString (cellAt row 2)
    bet_size := safeToNumber (cellAt row 3)
    num_plays := safeToNumber (cellAt row 4)
    ending_balance := safeToNumber (cellAt row 5)
    total_wagered := safeToNumber (cellAt row 6)
    total_won := safeToNumber (cellAt row 7)
    net_result := safeToNumber (cellAt row 8)
    rtp := safeToNumber (cellAt row 9) }

/-- Construction of one transaction record from a raw row (index.ts
lines 215-225). -/
def mkTransaction (userId : String) (row : List CellValue) : TransactionRecord :=
  { user_id := userId
    transaction_date := wagerDateOf (cellAt row 0)
    casino_name := safeToString (cellAt row 1)
    type := safeToString (cellAt row 2)
    amount_spent := safeToNumber (cellAt row 3)
    redemption_request := safeToNumber (cellAt row 4)
    after_playthrough_value := safeToNumber (cellAt row 5)
    cc_points := safeToNumber (cellAt row 6)
    tax_implications := safeToNumber (cellAt row 7) }

/-- Embedding of the wagers parse loop (index.ts lines 154-185): blank
rows are skipped, rows with a falsy date or casino-name cell are skipped
with a warning, every other row is mapped and appended in order.  The
`!row` disjunct of the source is omitted because rows of a parsed sheet
are always arrays. -/
def parseWagerRows (userId : String) : List (List CellValue) → List WagerRecord
  | [] => []
  | row :: rest =>
    if row.isEmpty || row.all isNullOrEmptyCell then
      parseWagerRows userId rest
    else if !truthy (cellAt row 0) || !truthy (cellAt row 1) then
      parseWagerRows userId rest
    else
      mkWager userId row :: parseWagerRows userId rest

/-- Embedding of the transactions parse loop (index.ts lines 203-227),
identical in structure to the wagers loop. -/
def parseTransactionRows (userId : String) : List (List CellValue) → List TransactionRecord
  | [] => []
  | row :: rest =>
    if row.isEmpty || row.all isNullOrEmptyCell then
      parseTransactionRows userId rest
    else if !truthy (cellAt row 0) || !truthy (cellAt row 1) then
      parseTransactionRows userId rest
    else
      mkTransaction userId row :: parseTransactionRows userId rest

/-- A parsed workbook: the sheet-name directory `SheetNames` and the
sheet contents `Sheets`, each sheet an ordered list of raw rows. -/
structure Workbook where
  sheetNames : List String
  sheets : List (String × List (List CellValue))
deriving DecidableEq

/-- Lookup `workbook.Sheets[name]`. -/
def Workbook.getSheet (wb : Workbook) (name : String) : Option (List (List CellValue)) :=
  (wb.sheets.find? (fun p => p.1 = name)).map (fun p => p.2)

/-- One database operation issued by the handler, in issue order:
delete-by-owner on one of the two collections, or a batch insert
carrying the inserted records. -/
inductive DbOp where
  | deleteAllWagers (userId : String)
  | deleteAllTransactions (userId : String)
  | insertWagers (records : List WagerRecord)
  | insertTransactions (records : List TransactionRecord)
deriving DecidableEq

/-- Outcome environment for the four persistence calls: for each call,
none means success and `some msg` means the call reports an error with
that message. -/
structure DbEnv where
  deleteWagersError : Option String
  deleteTransactionsError : Option String
  insertWagersError : Option String
  insertTransactionsError : Option String
deriving DecidableEq

/-- A thrown JavaScript value as observed by the catch block: its
`.message` and whether it is an `Error` instance (auth, file and sheet
errors are constructed with `new Error`; persistence errors are plain
supabase error objects). -/
structure Thrown where
  message : String
  isError : Bool
deriving DecidableEq

/-- The response produced by one run of the handler. -/
inductive RunResult where
  | success (message : String) (wagersAdded transactionsAdded : Nat)
  | sheetNotFound (error : String)
  | failure (message : String) (status : Nat)
deriving DecidableEq

/-- Decidable equality for `Except`, needed to evaluate concrete runs
of the handler. -/
instance instDecEqExcept {α β : Type} [DecidableEq α] [DecidableEq β] :
    DecidableEq (Except α β) := fun x y =>
  match x, y with
  | .ok a, .ok b =>
    match decEq a b with
    | isTrue h => isTrue (congrArg Except.ok h)
    | isFalse h => isFalse (fun hh => h (Except.ok.inj hh))
  | .error a, .error b =>
    match decEq a b with
    | isTrue h => isTrue (congrArg Except.error h)
    | isFalse h => isFalse (fun hh => h (Except.error.inj hh))
  | .ok _, .error _ => isFalse (fun hh => Except.noConfusion hh)
  | .error _, .ok _ => isFalse (fun hh => Except.noConfusion hh)

/-- Request-shaped inputs of one run: presence of the Authorization
header, outcome of `auth.getUser` (error message, with the undefined
message modelled as the empty string, or the authenticated user id),
presence of the `spreadsheet` form field, emptiness of the uploaded
buffer, and the outcome of `xlsx.read`. -/
structure RunInput where
  hasAuthHeader : Bool
  getUserResult : Except String String
  hasFile : Bool
  bufferEmpty : Bool
  parseResult : Except String Workbook
deriving DecidableEq

/-- JavaScript `haystack.startsWith`-style comparison on character
lists, used to model `String.prototype.includes`. -/
def charsStartWith : List Char → List Char → Bool
  | _, [] => true
  | [], _ :: _ => false
  | c :: cs, d :: ds => c = d && charsStartWith cs ds

/-- Substring containment on character lists. -/
def charsContain : List Char → List Char → Bool
  | [], needle => needle.isEmpty
  | c :: cs, needle => charsStartWith (c :: cs) needle || charsContain cs needle

/-- JavaScript `s.includes(sub)`. -/
def jsIncludes (s sub : String) : Bool :=
  charsContain s.toList sub.toList

/-- The error message thrown when a required sheet is absent from the
sheet directory (index.ts line 135). -/
def missingSheetsMessage : String :=
  "Spreadsheet must contain both \x27Wagers\x27 and \x27Transactions\x27 sheets."

/-- The success response message (index.ts line 279). -/
def successMessage (w t : Nat) : String :=
  "Successfully processed spreadsheet. Added " ++ toString w ++
    " wager records and " ++ toString t ++ " transaction records."

/-- Embedding of the catch block (index.ts lines 287-294): the response
message falls back to a generic one when the thrown message is empty,
and the status is 400 exactly for `Error` instances whose message
contains one of the recognised client-error substrings. -/
def catchResponse (t : Thrown) : RunResult :=
  .failure (if t.message = "" then "Internal Server Error" else t.message)
    (if t.isError &&
        (jsIncludes t.message "sheet" || jsIncludes t.message "Missing Authorization" ||
          jsIncludes t.message "User not found" || jsIncludes t.message "empty file" ||
          jsIncludes t.message "not found in request data") then 400 else 500)

/-- Embedding of the persistence sequence (index.ts lines 242-275):
delete wagers, delete transactions, then insert each nonempty batch,
aborting at the first reported error; returns the inserted counts and
the ordered trace of issued operations. -/
def persistPhase (userId : String) (wagers : List WagerRecord)
    (txns : List TransactionRecord) (env : DbEnv) :
    Except Thrown (Nat × Nat) × List DbOp :=
  match env.deleteWagersError with
  | some e => (.error ⟨e, false⟩, [.deleteAllWagers userId])
  | none =>
    match env.deleteTransactionsError with
    | some e => (.error ⟨e, false⟩, [.deleteAllWagers userId, .deleteAllTransactions userId])
    | none =>
      if wagers.length > 0 then
        match env.insertWagersError with
        | some e =>
          (.error ⟨e, false⟩,
            [.deleteAllWagers userId, .deleteAllTransactions userId, .insertWagers wagers])
        | none =>
          if txns.length > 0 then
            match env.insertTransactionsError with
            | some e =>
              (.error ⟨e, false⟩,
                [.deleteAllWagers userId, .deleteAllTransactions userId,
                  .insertWagers wagers, .insertTransactions txns])
            | none =>
              (.ok (wagers.length, txns.length),
                [.deleteAllWagers userId, .deleteAllTransactions userId,
                  .insertWagers wagers, .insertTransactions txns])
          else
            (.ok (wagers.length, txns.length),
              [.deleteAllWagers userId, .deleteAllTransactions userId, .insertWagers wagers])
      else
        if txns.length > 0 then
          match env.insertTransactionsError with
          | some e =>
            (.error ⟨e, false⟩,
              [.deleteAllWagers userId, .deleteAllTransactions userId, .insertTransactions txns])
          | none =>
            (.ok (wagers.length, txns.length),
              [.deleteAllWagers userId, .deleteAllTransactions userId, .insertTransactions txns])
        else
          (.ok (wagers.length, txns.length),
            [.deleteAllWagers userId, .deleteAllTransactions userId])

/-- Embedding of the try block of the request handler (index.ts lines
81-285): authentication, form-file reading, workbook parsing, the
required-sheets check, per-sheet extraction and row mapping, then the
persistence sequence; alongside the outcome it returns the ordered
trace of database operations issued. -/
def runTry (inp : RunInput) (env : DbEnv) : Except Thrown RunResult × List DbOp :=
  if !inp.hasAuthHeader then (.error ⟨"Missing Authorization header", true⟩, [])
  else
    match inp.getUserResult with
    | .error m =>
      (.error ⟨if m = "" then "User not found or invalid token" else m, true⟩, [])
    | .ok userId =>
      if !inp.hasFile then
        (.error ⟨"Spreadsheet file not found in request data.", true⟩, [])
      else if inp.bufferEmpty then (.error ⟨"Received empty file", true⟩, [])
      else
        match inp.parseResult with
        | .error m => (.error ⟨m, true⟩, [])
        | .ok wb =>
          if !(wb.sheetNames.contains "Wagers") || !(wb.sheetNames.contains "Transactions") then
            (.error ⟨missingSheetsMessage, true⟩, [])
          else
            match wb.getSheet "Wagers" with
            | none => (.ok (.sheetNotFound "Sheet \x27Wagers\x27 not found in the spreadsheet."), [])
            | some wrows =>
              let parsedWagers := parseWagerRows userId wrows
              match wb.getSheet "Transactions" with
              | none =>
                (.ok (.sheetNotFound "Sheet \x27Transactions\x27 not found in the spreadsheet."), [])
              | some trows =>
                let parsedTransactions := parseTransactionRows userId trows
                match persistPhase userId parsedWagers parsedTransactions env with
                | (.ok (w, t), ops) => (.ok (.success (successMessage w t) w t), ops)
                | (.error e, ops) => (.error e, ops)

/-- One full run of the handler: the try block with the catch block
around it. -/
def runHandler (inp : RunInput) (env : DbEnv) : RunResult × List DbOp :=
  match runTry inp env with
  | (.ok r, ops) => (r, ops)
  | (.error t, ops) => (catchResponse t, ops)

/-- A row passes both skip checks of the parse loops: it is not blank
and its date and casino-name cells are truthy. -/
def rowAccepted (row : List CellValue) : Bool :=
  !(row.isEmpty || row.all isNullOrEmptyCell) &&
    (truthy (cellAt row 0) && truthy (cellAt row 1))

/-- Concrete workbook fixture: one valid wager row, one wager row with
a missing date, and an empty transactions sheet. -/
def sampleWorkbook : Workbook :=
  ⟨["Wagers", "Transactions"],
   [("Wagers",
     [[.vNum (.num 45292), .vStr "Casino A", .vStr "Slots", .vNum (.num 1), .vNum (.num 10),
       .vNum (.num 100), .vNum (.num 50), .vNum (.num 40), .vNum (.num (mkRat (-10) 1)),
       .vNum (.num (mkRat 8 10))],
      [.vNull, .vStr "Casino B"]]),
    ("Transactions", [])]⟩

/-- Concrete request fixture around `sampleWorkbook`. -/
def sampleInput : RunInput := ⟨true, .ok "user-1", true, false, .ok sampleWorkbook⟩

/-- Environment in which all four persistence calls succeed. -/
def allOkEnv : DbEnv := ⟨none, none, none, none⟩

/-- Environment in which the delete-wagers call fails. -/
def deleteFailEnv : DbEnv := ⟨some "boom", none, none, none⟩

/-- Workbook fixture whose sheet directory lacks the Wagers sheet. -/
def missingWagersWorkbook : Workbook := ⟨["Transactions"], [("Transactions", [])]⟩

/-- Concrete request fixture around `missingWagersWorkbook`. -/
def missingWagersInput : RunInput :=
  ⟨true, .ok "user-2", true, false, .ok missingWagersWorkbook⟩

/-! ### Bridging lemmas for the kernel-reducible rational helpers -/

theorem intToRat_eq (n : Int) : intToRat n = (n : Rat) := by
  simp [intToRat]

theorem qMul_eq (a b : Rat) : qMul a b = a * b := by
  have ha : ((a.den : Rat)) ≠ 0 := Nat.cast_ne_zero.mpr a.den_nz
  have hb : ((b.den : Rat)) ≠ 0 := Nat.cast_ne_zero.mpr b.den_nz
  rw [qMul, Rat.mkRat_eq_divInt, Rat.divInt_eq_div]
  push_cast
  conv_rhs => rw [← Rat.num_div_den a, ← Rat.num_div_den b]
  field_simp

theorem qAdd_eq (a b : Rat) : qAdd a b = a + b := by
  have ha : ((a.den : Rat)) ≠ 0 := Nat.cast_ne_zero.mpr a.den_nz
  have hb : ((b.den : Rat)) ≠ 0 := Nat.cast_ne_zero.mpr b.den_nz
  rw [qAdd, Rat.mkRat_eq_divInt, Rat.divInt_eq_div]
  push_cast
  conv_rhs => rw [← Rat.num_div_den a, ← Rat.num_div_den b]
  field_simp

theorem qAbs_eq (a : Rat) : qAbs a = |a| := by
  rcases le_or_lt 0 a.num with h | h
  · have h0 : 0 ≤ a := Rat.num_nonneg.mp h
    rw [qAbs, Int.natAbs_of_nonneg h, Rat.mkRat_self, abs_of_nonneg h0]
  · have h0 : a < 0 := by
      by_contra hc
      exact absurd (Rat.num_nonneg.mpr (not_lt.mp hc)) (not_le.mpr h)
    have hnat : (a.num.natAbs : Int) = -a.num := Int.ofNat_natAbs_of_nonpos h.le
    rw [qAbs, hnat, Rat.mkRat_eq_divInt, ← Rat.neg_divInt, Rat.divInt_self, abs_of_neg h0]

/-! ### Characterisation of the row-mapping loops -/

theorem parseWagerRows_eq (uid : String) (rows : List (List CellValue)) :
    parseWagerRows uid rows = (rows.filter rowAccepted).map (mkWager uid) := by
  induction rows with
  | nil => rfl
  | cons row rest ih =>
    by_cases h1 : (row.isEmpty || row.all isNullOrEmptyCell) = true
    · have hacc : rowAccepted row = false := by
        simp [rowAccepted, h1]
      simp [parseWagerRows, h1, List.filter, hacc, ih]
    · by_cases h2 : (!truthy (cellAt row 0) || !truthy (cellAt row 1)) = true
      · have hacc : rowAccepted row = false := by
          simp only [Bool.or_eq_true, Bool.not_eq_true'] at h2
          rcases h2 with h2 | h2 <;> simp [rowAccepted, h2]
        simp [parseWagerRows, h1, h2, List.filter, hacc, ih]
      · have hacc : rowAccepted row = true := by
          simp only [Bool.or_eq_true, Bool.not_eq_true'] at h2
          push_neg at h2
          simp only [Bool.or_eq_true] at h1
          push_neg at h1
          simp [rowAccepted, h1.1, h1.2, h2.1, h2.2]
        simp [parseWagerRows, h1, h2, List.filter, hacc, ih]

theorem parseTransactionRows_eq (uid : String) (rows : List (List CellValue)) :
    parseTransactionRows uid rows = (rows.filter rowAccepted).map (mkTransaction uid) := by
  induction rows with
  | nil => rfl
  | cons row rest ih =>
    by_cases h1 : (row.isEmpty || row.all isNullOrEmptyCell) = true
    · have hacc : rowAccepted row = false := by
        simp [rowAccepted, h1]
      simp [parseTransactionRows, h1, List.filter, hacc, ih]
    · by_cases h2 : (!truthy (cellAt row 0) || !truthy (cellAt row 1)) = true
      · have hacc : rowAccepted row = false := by
          simp only [Bool.or_eq_true, Bool.not_eq_true'] at h2
          rcases h2 with h2 | h2 <;> simp [rowAccepted, h2]
        simp [parseTransactionRows, h1, h2, List.filter, hacc, ih]
      · have hacc : rowAccepted row = true := by
          simp only [Bool.or_eq_true, Bool.not_eq_true'] at h2
          push_neg at h2
          simp only [Bool.or_eq_true] at h1
          push_neg at h1
          simp [rowAccepted, h1.1, h1.2, h2.1, h2.2]
        simp [parseTransactionRows, h1, h2, List.filter, hacc, ih]

theorem mem_parseWagerRows_user_id (uid : String) (rows : List (List CellValue))
    (rec : WagerRecord) (h : rec ∈ parseWagerRows uid rows) : rec.user_id = uid := by
  rw [parseWagerRows_eq] at h
  rcases List.mem_map.mp h with ⟨row, _, hrow⟩
  rw [← hrow]
  rfl

theorem mem_parseTransactionRows_user_id (uid : String) (rows : List (List CellValue))
    (rec : TransactionRecord) (h : rec ∈ parseTransactionRows uid rows) :
    rec.user_id = uid := by
  rw [parseTransactionRows_eq] at h
  rcases List.mem_map.mp h with ⟨row, _, hrow⟩
  rw [← hrow]
  rfl

/-! ### Characterisation of the persistence sequence -/

theorem persistPhase_ops_mem (uid : String) (pw : List WagerRecord)
    (pt : List TransactionRecord) (env : DbEnv) (op : DbOp)
    (h : op ∈ (persistPhase uid pw pt env).2) :
    op = .deleteAllWagers uid ∨ op = .deleteAllTransactions uid ∨
      op = .insertWagers pw ∨ op = .insertTransactions pt := by
  rcases env with ⟨dw, dt, iw, it⟩
  rcases dw with _ | e
  · rcases dt with _ | e
    · by_cases hw : pw.length > 0 <;> by_cases ht : pt.length > 0 <;>
        rcases iw with _ | e <;> rcases it with _ | e <;>
        simp [persistPhase, hw, ht] at h <;> tauto
    · simp [persistPhase] at h; tauto
  · simp [persistPhase] at h; tauto

theorem persistPhase_ops_head (uid : String) (pw : List WagerRecord)
    (pt : List TransactionRecord) (env : DbEnv) :
    (persistPhase uid pw pt env).2.head? = some (.deleteAllWagers uid) := by
  rcases env with ⟨dw, dt, iw, it⟩
  rcases dw with _ | e
  · rcases dt with _ | e
    · by_cases hw : pw.length > 0 <;> by_cases ht : pt.length > 0 <;>
        rcases iw with _ | e <;> rcases it with _ | e <;> simp [persistPhase, hw, ht]
    · simp [persistPhase]
  · simp [persistPhase]

theorem persistPhase_ok (uid : String) (pw : List WagerRecord)
    (pt : List TransactionRecord) (env : DbEnv) (w t : Nat) (ops : List DbOp)
    (h : persistPhase uid pw pt env = (.ok (w, t), ops)) :
    w = pw.length ∧ t = pt.length ∧
      (pw = [] → ∀ recs, DbOp.insertWagers recs ∉ ops) ∧
      (pt = [] → ∀ recs, DbOp.insertTransactions recs ∉ ops) := by
  rcases env with ⟨dw, dt, iw, it⟩
  rcases dw with _ | e
  · rcases dt with _ | e
    · by_cases hw : pw.length > 0 <;> by_cases ht : pt.length > 0 <;>
        rcases iw with _ | e <;> rcases it with _ | e <;>
        simp [persistPhase, hw, ht] at h <;>
        (obtain ⟨⟨hww, htt⟩, hops⟩ := h
         refine ⟨hww.symm, htt.symm, ?_, ?_⟩
         · intro hpw recs hmem
           subst hpw
           subst hops
           simp_all
         · intro hpt recs hmem
           subst hpt
           subst hops
           simp_all)
    · simp [persistPhase] at h
  · simp [persistPhase] at h

/-- Emptiness of the wager batch rules out a wagers insert among the
issued operations of a successful persistence run; companion fact to
`persistPhase_ok` covering the failure cases as well. -/
theorem persistPhase_empty_no_insert (uid : String) (pw : List WagerRecord)
    (pt : List TransactionRecord) (env : DbEnv) :
    (pw = [] → ∀ recs, DbOp.insertWagers recs ∉ (persistPhase uid pw pt env).2) ∧
    (pt = [] → ∀ recs, DbOp.insertTransactions recs ∉ (persistPhase uid pw pt env).2) := by
  rcases env with ⟨dw, dt, iw, it⟩
  constructor
  · intro hpw recs hmem
    subst hpw
    rcases dw with _ | e
    · rcases dt with _ | e
      · by_cases ht : pt.length > 0 <;>
          rcases iw with _ | e <;> rcases it with _ | e <;>
          simp [persistPhase, ht] at hmem
      · simp [persistPhase] at hmem
    · simp [persistPhase] at hmem
  · intro hpt recs hmem
    subst hpt
    rcases dw with _ | e
    · rcases dt with _ | e
      · by_cases hw : pw.length > 0 <;>
          rcases iw with _ | e <;> rcases it with _ | e <;>
          simp [persistPhase, hw] at hmem
      · simp [persistPhase] at hmem
    · simp [persistPhase] at hmem

/-! ### Characterisation of the handler -/

/-- Every run either issues no database operation and does not succeed,
or has passed authentication, file reading, workbook parsing, the
required-sheets check and both sheet lookups, and then behaves exactly
as the persistence sequence on the two assembled batches. -/
theorem runTry_cases (inp : RunInput) (env : DbEnv) :
    ((runTry inp env).2 = [] ∧ ∀ m w t, (runTry inp env).1 ≠ .ok (.success m w t)) ∨
    ∃ uid wb wrows trows,
      inp.hasAuthHeader = true ∧ inp.getUserResult = .ok uid ∧ inp.hasFile = true ∧
      inp.bufferEmpty = false ∧ inp.parseResult = .ok wb ∧
      wb.sheetNames.contains "Wagers" = true ∧
      wb.sheetNames.contains "Transactions" = true ∧
      wb.getSheet "Wagers" = some wrows ∧ wb.getSheet "Transactions" = some trows ∧
      runTry inp env =
        ((persistPhase uid (parseWagerRows uid wrows) (parseTransactionRows uid trows) env).1.map
            (fun p => RunResult.success (successMessage p.1 p.2) p.1 p.2),
          (persistPhase uid (parseWagerRows uid wrows) (parseTransactionRows uid trows) env).2) := by
  rcases inp with ⟨hA, gu, hF, bE, pr⟩
  cases hA with
  | false => exact .inl ⟨by simp [runTry], by intro m w t; simp [runTry]⟩
  | true =>
  cases gu with
  | error e => exact .inl ⟨by simp [runTry], by intro m w t; simp [runTry]⟩
  | ok uid =>
  cases hF with
  | false => exact .inl ⟨by simp [runTry], by intro m w t; simp [runTry]⟩
  | true =>
  cases bE with
  | true => exact .inl ⟨by simp [runTry], by intro m w t; simp [runTry]⟩
  | false =>
  cases pr with
  | error e => exact .inl ⟨by simp [runTry], by intro m w t; simp [runTry]⟩
  | ok wb =>
  by_cases hc : (!(wb.sheetNames.contains "Wagers") || !(wb.sheetNames.contains "Transactions")) = true
  · have hcp : "Wagers" ∉ wb.sheetNames ∨ "Transactions" ∉ wb.sheetNames := by
      simpa using hc
    exact .inl ⟨by simp [runTry, hcp], by intro m w t; simp [runTry, hcp]⟩
  · have h1 : wb.sheetNames.contains "Wagers" = true := by
      revert hc
      cases wb.sheetNames.contains "Wagers" <;> cases wb.sheetNames.contains "Transactions" <;> simp
    have h2 : wb.sheetNames.contains "Transactions" = true := by
      revert hc
      cases wb.sheetNames.contains "Wagers" <;> cases wb.sheetNames.contains "Transactions" <;> simp
    have hm1 : "Wagers" ∈ wb.sheetNames := by simpa using h1
    have hm2 : "Transactions" ∈ wb.sheetNames := by simpa using h2
    rcases hW : wb.getSheet "Wagers" with _ | wrows
    · exact .inl ⟨by simp [runTry, hm1, hm2, hW], by intro m w t; simp [runTry, hm1, hm2, hW]⟩
    · rcases hT : wb.getSheet "Transactions" with _ | trows
      · exact .inl ⟨by simp [runTry, hm1, hm2, hW, hT],
          by intro m w t; simp [runTry, hm1, hm2, hW, hT]⟩
      · refine .inr ⟨uid, wb, wrows, trows, rfl, rfl, rfl, rfl, rfl, h1, h2, hW, hT, ?_⟩
        rcases hp : persistPhase uid (parseWagerRows uid wrows) (parseTransactionRows uid trows) env
          with ⟨pres, pops⟩
        cases pres with
        | ok v =>
          rcases v with ⟨w, t⟩
          simp [runTry, hm1, hm2, hW, hT, hp, Except.map]
        | error e =>
          simp [runTry, hm1, hm2, hW, hT, hp, Except.map]

/-- The issued operation trace is unaffected by the catch block. -/
theorem runHandler_ops (inp : RunInput) (env : DbEnv) :
    (runHandler inp env).2 = (runTry inp env).2 := by
  unfold runHandler
  rcases h : runTry inp env with ⟨r, ops⟩
  cases r <;> rfl

/-- A success response can only come from the try block succeeding with
that same response. -/
theorem runHandler_success (inp : RunInput) (env : DbEnv) (m : String) (w t : Nat)
    (ops : List DbOp) (h : runHandler inp env = (.success m w t, ops)) :
    runTry inp env = (.ok (.success m w t), ops) := by
  unfold runHandler at h
  rcases he : runTry inp env with ⟨r, ops2⟩
  rw [he] at h
  cases r with
  | ok v =>
    obtain ⟨hv, hops⟩ := Prod.mk.injEq .. ▸ h
    rw [hv, hops]
  | error e =>
    exfalso
    simp only [catchResponse] at h
    obtain ⟨hv, _⟩ := Prod.mk.injEq .. ▸ h
    exact RunResult.noConfusion hv

/-! ### Claim theorems -/

/-- Claim C6 counterexample: the claim states that `coerceNumber`
returns null whenever the numeric parse yields a non-finite value, but
`safeToNumber` only filters NaN, so the string Infinity, whose parse
yields the non-finite value positive infinity, is returned as a number
rather than null. -/
theorem claim_C6_counterexample :
    safeToNumber (.vStr "Infinity") = some JsNum.posInf ∧
      safeToNumber (.vStr "Infinity") ≠ none := by
  constructor
  · decide
  · decide

/-- Claim C6 (amended): `safeToNumber` is total and never throws; it
returns null for the empty string, null and undefined, and for every
input whose numeric parse yields NaN (in particular every non-numeric
string); it never returns NaN; but an input parsing to a non-finite
value (such as the string Infinity) is returned as that value rather
than null. -/
theorem claim_C6_coerceNumber_total :
    safeToNumber .vNull = none ∧ safeToNumber .vUndefined = none ∧
      safeToNumber (.vStr "") = none ∧
      (∀ s : String, strToNumber s = .nan → safeToNumber (.vStr s) = none) ∧
      (∀ v : CellValue, ∀ n : JsNum, safeToNumber v = some n → n ≠ .nan) := by
  refine ⟨rfl, rfl, rfl, ?_, ?_⟩
  · intro s h
    by_cases hs : s = ""
    · subst hs; rfl
    · have hne : ¬(CellValue.vStr s = .vNull ∨ CellValue.vStr s = .vUndefined ∨
          CellValue.vStr s = .vStr "") := by
        simp [hs]
      simp [safeToNumber, hne, jsToNumber, h]
  · intro v n h
    by_cases hv : v = .vNull ∨ v = .vUndefined ∨ v = .vStr ""
    · simp [safeToNumber, hv] at h
    · simp only [safeToNumber, if_neg hv] at h
      by_cases hn : jsToNumber v = .nan
      · simp [hn] at h
      · simp only [if_neg hn] at h
        rw [← Option.some.inj h]
        exact hn

/-- Claim C6 witness: the non-numeric string abc parses to NaN, and
`safeToNumber` maps it to null. -/
theorem claim_C6_witness : safeToNumber (.vStr "abc") = none :=
  claim_C6_coerceNumber_total.2.2.2.1 "abc" (by decide)

/-- Claim C8: `safeToString` returns null for null and undefined; every
other input is stringified and trimmed, with an empty trimmed result
mapped to null and a nonempty one returned as is; in particular a
returned string is never empty. -/
theorem claim_C8_coerceString :
    safeToString .vNull = none ∧ safeToString .vUndefined = none ∧
      (∀ v : CellValue, v ≠ .vNull → v ≠ .vUndefined →
        safeToString v =
          (if jsTrim (jsToString v) = "" then none
           else some (jsTrim (jsToString v)))) ∧
      (∀ v : CellValue, ∀ s : String, safeToString v = some s →
        s = jsTrim (jsToString v) ∧ s ≠ "") := by
  refine ⟨rfl, rfl, ?_, ?_⟩
  · intro v h1 h2
    have hne : ¬(v = .vNull ∨ v = .vUndefined) := by simp [h1, h2]
    simp [safeToString, hne]
  · intro v s h
    by_cases hv : v = .vNull ∨ v = .vUndefined
    · simp [safeToString, hv] at h
    · simp only [safeToString, if_neg hv] at h
      by_cases he : jsTrim (jsToString v) = ""
      · simp [he] at h
      · simp only [if_neg he] at h
        have hs := Option.some.inj h
        exact ⟨hs.symm, hs ▸ he⟩

/-- Claim C8 witness: a whitespace-only cell trims to the empty string
and becomes null. -/
theorem claim_C8_witness :
    safeToString (CellValue.vStr "   ") =
      (if jsTrim (jsToString (CellValue.vStr "   ")) = "" then none
       else some (jsTrim (jsToString (CellValue.vStr "   ")))) :=
  claim_C8_coerceString.2.2.1 (CellValue.vStr "   ") (by decide) (by decide)

/-- Claim C4: a row whose date cell (column 0) or casino-name cell
(column 1) is falsy is skipped by both row-mapping loops: removing such
a row from the input leaves both output batches unchanged, so no record
derived from it ever appears. -/
theorem claim_C4_falsy_rows_skipped (uid : String) (pre post : List (List CellValue))
    (row : List CellValue)
    (h : truthy (cellAt row 0) = false ∨ truthy (cellAt row 1) = false) :
    parseWagerRows uid (pre ++ row :: post) = parseWagerRows uid (pre ++ post) ∧
    parseTransactionRows uid (pre ++ row :: post) = parseTransactionRows uid (pre ++ post) := by
  have hacc : rowAccepted row = false := by
    rcases h with h | h <;> simp [rowAccepted, h]
  constructor <;>
    simp [parseWagerRows_eq, parseTransactionRows_eq, List.filter_append, List.filter, hacc]

/-- Claim C4 witness: a concrete row with a null date cell is dropped
from both batches. -/
theorem claim_C4_witness :
    parseWagerRows "u" ([] ++ [CellValue.vNull, CellValue.vStr "Casino B"] :: []) =
        parseWagerRows "u" ([] ++ []) ∧
      parseTransactionRows "u" ([] ++ [CellValue.vNull, CellValue.vStr "Casino B"] :: []) =
        parseTransactionRows "u" ([] ++ []) :=
  claim_C4_falsy_rows_skipped "u" [] [] [CellValue.vNull, CellValue.vStr "Casino B"]
    (by decide)

/-- Claim C9: each batch assembler produces exactly the image of the
rows passing the skip checks under the row mapper, in input order; being
a pure function of the sheet rows and the owner identifier, the output
sequence is deterministic. -/
theorem claim_C9_batch_assembler (uid : String) (rows : List (List CellValue)) :
    parseWagerRows uid rows = (rows.filter rowAccepted).map (mkWager uid) ∧
    parseTransactionRows uid rows = (rows.filter rowAccepted).map (mkTransaction uid) :=
  ⟨parseWagerRows_eq uid rows, parseTransactionRows_eq uid rows⟩

/-- Claim C3: every record carried by an insert operation of any run
has the resolved caller identity as its owner, and the owner field of a
mapped record equals the supplied identity whatever the row contains,
so no cell content ever determines it. -/
theorem claim_C3_owner_identity (inp : RunInput) (env : DbEnv) (uid : String)
    (r : RunResult) (ops : List DbOp)
    (hu : inp.getUserResult = .ok uid) (h : runHandler inp env = (r, ops)) :
    (∀ op ∈ ops,
      (∀ recs, op = .insertWagers recs → ∀ rec ∈ recs, rec.user_id = uid) ∧
      (∀ recs, op = .insertTransactions recs → ∀ rec ∈ recs, rec.user_id = uid)) ∧
    (∀ row : List CellValue,
      (mkWager uid row).user_id = uid ∧ (mkTransaction uid row).user_id = uid) := by
  refine ⟨?_, fun row => ⟨rfl, rfl⟩⟩
  intro op hop
  have hops : ops = (runTry inp env).2 := by
    rw [← runHandler_ops inp env, h]
  rcases runTry_cases inp env with ⟨hemp, _⟩ |
    ⟨uid2, wb, wrows, trows, _, hu2, _, _, _, _, _, _, _, heq⟩
  · rw [hops, hemp] at hop
    cases hop
  · have huid : uid2 = uid := by
      rw [hu] at hu2
      exact (Except.ok.inj hu2).symm
    subst huid
    rw [hops, heq] at hop
    rcases persistPhase_ops_mem _ _ _ _ _ hop with h1 | h1 | h1 | h1 <;> subst h1
    · exact ⟨fun recs hw => (nomatch hw), fun recs ht => nomatch ht⟩
    · exact ⟨fun recs hw => (nomatch hw), fun recs ht => nomatch ht⟩
    · refine ⟨fun recs hw rec hrec => ?_, fun recs ht => nomatch ht⟩
      obtain rfl : parseWagerRows uid2 wrows = recs := DbOp.insertWagers.inj hw
      exact mem_parseWagerRows_user_id uid2 wrows rec hrec
    · refine ⟨fun recs hw => (nomatch hw), fun recs ht rec hrec => ?_⟩
      obtain rfl : parseTransactionRows uid2 trows = recs := DbOp.insertTransactions.inj ht
      exact mem_parseTransactionRows_user_id uid2 trows rec hrec

/-- Claim C3 witness: a concrete run inserts only records owned by the
authenticated user, and mapped records carry the supplied identity. -/
theorem claim_C3_witness :
    (∀ op ∈ (runHandler sampleInput allOkEnv).2,
      (∀ recs, op = .insertWagers recs → ∀ rec ∈ recs, rec.user_id = "user-1") ∧
      (∀ recs, op = .insertTransactions recs → ∀ rec ∈ recs, rec.user_id = "user-1")) ∧
    (∀ row : List CellValue,
      (mkWager "user-1" row).user_id = "user-1" ∧
      (mkTransaction "user-1" row).user_id = "user-1") :=
  claim_C3_owner_identity sampleInput allOkEnv "user-1"
    (runHandler sampleInput allOkEnv).1 (runHandler sampleInput allOkEnv).2 rfl rfl

/-- Claim C10: a run that issued any database operation at all has
passed authentication, file reading, workbook parsing, the
required-sheets check and both sheet lookups, and its first issued
operation is the delete of the owner's wagers; contrapositively, any
failure during parsing, sheet lookup or row mapping leaves the stored
data untouched. -/
theorem claim_C10_no_persistence_before_parse (inp : RunInput) (env : DbEnv)
    (r : RunResult) (ops : List DbOp)
    (h : runHandler inp env = (r, ops)) (hne : ops ≠ []) :
    ∃ uid wb wrows trows,
      inp.hasAuthHeader = true ∧ inp.getUserResult = .ok uid ∧ inp.hasFile = true ∧
      inp.bufferEmpty = false ∧ inp.parseResult = .ok wb ∧
      wb.sheetNames.contains "Wagers" = true ∧
      wb.sheetNames.contains "Transactions" = true ∧
      wb.getSheet "Wagers" = some wrows ∧ wb.getSheet "Transactions" = some trows ∧
      ops.head? = some (.deleteAllWagers uid) := by
  have hops : ops = (runTry inp env).2 := by rw [← runHandler_ops inp env, h]
  rcases runTry_cases inp env with ⟨hemp, _⟩ |
    ⟨uid, wb, wrows, trows, hA, hu, hF, hB, hpr, hc1, hc2, hW, hT, heq⟩
  · exact absurd (hops.trans hemp) hne
  · refine ⟨uid, wb, wrows, trows, hA, hu, hF, hB, hpr, hc1, hc2, hW, hT, ?_⟩
    rw [hops, heq]
    exact persistPhase_ops_head uid _ _ env

/-- Claim C10 witness: a concrete run that issued operations did parse
the workbook, find both sheets, and started with the wagers delete. -/
theorem claim_C10_witness :
    ∃ uid wb wrows trows,
      sampleInput.hasAuthHeader = true ∧ sampleInput.getUserResult = .ok uid ∧
      sampleInput.hasFile = true ∧ sampleInput.bufferEmpty = false ∧
      sampleInput.parseResult = .ok wb ∧
      wb.sheetNames.contains "Wagers" = true ∧
      wb.sheetNames.contains "Transactions" = true ∧
      wb.getSheet "Wagers" = some wrows ∧ wb.getSheet "Transactions" = some trows ∧
      (runHandler sampleInput allOkEnv).2.head? = some (.deleteAllWagers uid) :=
  claim_C10_no_persistence_before_parse sampleInput allOkEnv
    (runHandler sampleInput allOkEnv).1 (runHandler sampleInput allOkEnv).2 rfl (by decide)

/-- Claim C7: a successful run reports exactly the sizes of the two
assembled batches, and a collection whose batch is empty receives no
insert call. -/
theorem claim_C7_success_summary (inp : RunInput) (env : DbEnv) (m : String)
    (w t : Nat) (ops : List DbOp)
    (h : runHandler inp env = (.success m w t, ops)) :
    ∃ uid wb wrows trows,
      inp.getUserResult = .ok uid ∧ inp.parseResult = .ok wb ∧
      wb.getSheet "Wagers" = some wrows ∧ wb.getSheet "Transactions" = some trows ∧
      w = (parseWagerRows uid wrows).length ∧
      t = (parseTransactionRows uid trows).length ∧
      (parseWagerRows uid wrows = [] → ∀ recs, DbOp.insertWagers recs ∉ ops) ∧
      (parseTransactionRows uid trows = [] → ∀ recs, DbOp.insertTransactions recs ∉ ops) := by
  have htr := runHandler_success inp env m w t ops h
  rcases runTry_cases inp env with ⟨_, hnone⟩ |
    ⟨uid, wb, wrows, trows, _, hu, _, _, hpr, _, _, hW, hT, heq⟩
  · exact absurd (by rw [htr]) (hnone m w t)
  · rw [htr] at heq
    rcases hp : persistPhase uid (parseWagerRows uid wrows) (parseTransactionRows uid trows) env
      with ⟨pres, pops⟩
    rw [hp] at heq
    have hfst := congrArg Prod.fst heq
    have hsnd := congrArg Prod.snd heq
    simp only at hfst hsnd
    cases pres with
    | error e => simp [Except.map] at hfst
    | ok v =>
      rcases v with ⟨w2, t2⟩
      simp only [Except.map] at hfst
      have hv := Except.ok.inj hfst
      obtain ⟨hm, hw2, ht3⟩ := RunResult.success.inj hv
      obtain ⟨hww, htt, hni, hnt⟩ := persistPhase_ok uid _ _ env w2 t2 pops hp
      refine ⟨uid, wb, wrows, trows, hu, hpr, hW, hT, ?_, ?_, ?_, ?_⟩
      · rw [hw2, hww]
      · rw [ht3, htt]
      · intro hpw recs hmem
        rw [hsnd] at hmem
        exact hni hpw recs hmem
      · intro hpt recs hmem
        rw [hsnd] at hmem
        exact hnt hpt recs hmem

/-- Claim C7 witness: the concrete sample run succeeds with one wager
and zero transactions, the counts match the batch sizes, and the empty
transactions batch receives no insert call. -/
theorem claim_C7_witness :
    ∃ uid wb wrows trows,
      sampleInput.getUserResult = .ok uid ∧ sampleInput.parseResult = .ok wb ∧
      wb.getSheet "Wagers" = some wrows ∧ wb.getSheet "Transactions" = some trows ∧
      1 = (parseWagerRows uid wrows).length ∧
      0 = (parseTransactionRows uid trows).length ∧
      (parseWagerRows uid wrows = [] →
        ∀ recs, DbOp.insertWagers recs ∉ (runHandler sampleInput allOkEnv).2) ∧
      (parseTransactionRows uid trows = [] →
        ∀ recs, DbOp.insertTransactions recs ∉ (runHandler sampleInput allOkEnv).2) :=
  claim_C7_success_summary sampleInput allOkEnv (successMessage 1 0) 1 0
    (runHandler sampleInput allOkEnv).2 (by decide)

/-- Claim C1 counterexample: when the delete-wagers call fails with the
message boom, the surfaced error is exactly that message with status
500; it does not contain the stage name DeleteWagers, so the response
does not identify the failing stage. -/
theorem claim_C1_counterexample :
    runHandler sampleInput deleteFailEnv =
        (.failure "boom" 500, [.deleteAllWagers "user-1"]) ∧
      jsIncludes "boom" "DeleteWagers" = false := by
  constructor
  · decide
  · decide

/-- Claim C1 (amended): if the delete-wagers persistence step fails,
the run terminates with an error response carrying that failure's own
message (the stage name is not included in the response) and status
500, and the only operation issued is the single delete-wagers call: no
delete-transactions call and no insert call occurs. -/
theorem claim_C1_delete_wagers_failure (inp : RunInput) (env : DbEnv) (uid : String)
    (wb : Workbook) (wrows trows : List (List CellValue)) (e : String)
    (hA : inp.hasAuthHeader = true) (hu : inp.getUserResult = .ok uid)
    (hF : inp.hasFile = true) (hB : inp.bufferEmpty = false)
    (hpr : inp.parseResult = .ok wb)
    (h1 : wb.sheetNames.contains "Wagers" = true)
    (h2 : wb.sheetNames.contains "Transactions" = true)
    (hW : wb.getSheet "Wagers" = some wrows) (hT : wb.getSheet "Transactions" = some trows)
    (hd : env.deleteWagersError = some e) :
    runHandler inp env =
      (.failure (if e = "" then "Internal Server Error" else e) 500,
        [.deleteAllWagers uid]) := by
  have hm1 : "Wagers" ∈ wb.sheetNames := by simpa using h1
  have hm2 : "Transactions" ∈ wb.sheetNames := by simpa using h2
  have hrt : runTry inp env = (.error ⟨e, false⟩, [.deleteAllWagers uid]) := by
    simp [runTry, hA, hu, hF, hB, hpr, hm1, hm2, hW, hT, persistPhase, hd]
  have hcr : runHandler inp env = (catchResponse ⟨e, false⟩, [.deleteAllWagers uid]) := by
    simp [runHandler, hrt]
  rw [hcr]
  simp [catchResponse]

/-- Claim C1 witness: the amended statement evaluated on the concrete
failing run. -/
theorem claim_C1_witness :
    runHandler sampleInput deleteFailEnv =
      (.failure (if "boom" = "" then "Internal Server Error" else "boom") 500,
        [.deleteAllWagers "user-1"]) :=
  claim_C1_delete_wagers_failure sampleInput deleteFailEnv "user-1" sampleWorkbook _ _ "boom"
    rfl rfl rfl rfl rfl (by decide) (by decide) rfl rfl rfl

/-- Claim C2: a workbook whose sheet directory lacks a required sheet
makes the run fail before any persistence call, with a client-error
response (status 400) whose message names the absent sheet, and an
empty operation trace. -/
theorem claim_C2_missing_sheet (inp : RunInput) (env : DbEnv) (uid : String)
    (wb : Workbook) (sheet : String)
    (hA : inp.hasAuthHeader = true) (hu : inp.getUserResult = .ok uid)
    (hF : inp.hasFile = true) (hB : inp.bufferEmpty = false)
    (hpr : inp.parseResult = .ok wb)
    (hs : sheet = "Wagers" ∨ sheet = "Transactions")
    (habs : wb.sheetNames.contains sheet = false) :
    runHandler inp env = (.failure missingSheetsMessage 400, []) ∧
      jsIncludes missingSheetsMessage sheet = true := by
  have hcp : "Wagers" ∉ wb.sheetNames ∨ "Transactions" ∉ wb.sheetNames := by
    rcases hs with hs | hs <;> subst hs
    · left
      simpa using habs
    · right
      simpa using habs
  constructor
  · have hrt : runTry inp env = (.error ⟨missingSheetsMessage, true⟩, []) := by
      simp [runTry, hA, hu, hF, hB, hpr, hcp]
    have hcr : runHandler inp env = (catchResponse ⟨missingSheetsMessage, true⟩, []) := by
      simp [runHandler, hrt]
    rw [hcr]
    decide
  · rcases hs with hs | hs <;> subst hs <;> decide

/-- Claim C2 witness: the concrete workbook missing the Wagers sheet
fails with status 400, an empty trace, and a message naming Wagers. -/
theorem claim_C2_witness :
    runHandler missingWagersInput allOkEnv = (.failure missingSheetsMessage 400, []) ∧
      jsIncludes missingSheetsMessage "Wagers" = true :=
  claim_C2_missing_sheet missingWagersInput allOkEnv "user-2" missingWagersWorkbook "Wagers"
    rfl rfl rfl rfl rfl (Or.inl rfl) (by decide)

/-- Evaluation of the serial-date conversion on a positive finite
serial: the guard passes and the epoch arithmetic is the rational
computation of the source expression. -/
theorem excelSerial_pos_eval (q : Rat) (hq : 0 < q) :
    excelSerialDateToYYYYMMDD (.vNum (.num q)) =
      match timeClip (.num ((excelEpochMs : Rat) + q * 86400000)) with
      | none => none
      | some t => some (formatCivil (getUTCCivil t)) := by
  have h1 : jsLeZero (.num q) = false := by
    simp [jsLeZero, not_le.mpr hq]
  have h2 : jsAdd (.num (intToRat excelEpochMs)) (jsMul (.num q) (.num 86400000)) =
      .num ((excelEpochMs : Rat) + q * 86400000) := by
    simp only [jsMul, jsAdd]
    rw [qAdd_eq, qMul_eq, intToRat_eq]
  simp only [excelSerialDateToYYYYMMDD, h1, Bool.false_eq_true, if_false, h2]

/-- Claim C5: the serial-date coercion maps every positive whole serial
s in the representable range to the formatted UTC calendar date whose
day number is that of 1899-12-30 plus s (day number -25569 plus s
relative to 1970-01-01, with day -25569 shown to be 1899-12-30), so
serial 1 maps to 1899-12-31; it returns null, without throwing, for
serial 0 and negative serials, for NaN and infinite serials, for any
non-number input, and for out-of-range serials; and a native Date value
is rendered through the ISO date part of its UTC calendar date, with a
Date at 2024-03-15 UTC mapping to that date string. -/
theorem claim_C5_coerceDate :
    (∀ s : Nat, 0 < s → s ≤ 100025569 →
      excelSerialDateToYYYYMMDD (.vNum (.num (s : Rat))) =
        some (formatCivil (civilFromDays (-25569 + (s : Int))))) ∧
    civilFromDays (-25569) = ⟨1899, 12, 30⟩ ∧
    excelSerialDateToYYYYMMDD (.vNum (.num 1)) = some "1899-12-31" ∧
    (∀ q : Rat, q ≤ 0 → excelSerialDateToYYYYMMDD (.vNum (.num q)) = none) ∧
    excelSerialDateToYYYYMMDD (.vNum .nan) = none ∧
    excelSerialDateToYYYYMMDD (.vNum .posInf) = none ∧
    excelSerialDateToYYYYMMDD (.vNum .negInf) = none ∧
    (∀ v : CellValue, (∀ n : JsNum, v ≠ .vNum n) → excelSerialDateToYYYYMMDD v = none) ∧
    (∀ q : Rat, 0 < q →
      (8640000000000000 : Rat) < (excelEpochMs : Rat) + q * 86400000 →
      excelSerialDateToYYYYMMDD (.vNum (.num q)) = none) ∧
    (∀ ms : Int, wagerDateOf (.vDate ms) = some (isoDatePart ms)) ∧
    wagerDateOf (.vDate 1710460800000) = some "2024-03-15" := by
  refine ⟨?_, by decide, by decide, ?_, by decide, by decide, by decide, ?_, ?_,
    fun ms => rfl, by decide⟩
  · intro s hs hbound
    have hq : (0 : Rat) < (s : Rat) := by exact_mod_cast hs
    rw [excelSerial_pos_eval _ hq]
    have hvq : (excelEpochMs : Rat) + (s : Rat) * 86400000 =
        (((-2209161600000 + (s : Int) * 86400000) : Int) : Rat) := by
      simp only [excelEpochMs]
      push_cast
      ring
    rw [hvq]
    have habs : |(-2209161600000 + (s : Int) * 86400000)| ≤ 8640000000000000 := by
      rw [abs_le]
      omega
    have hclip : timeClip (.num (((-2209161600000 + (s : Int) * 86400000) : Int) : Rat)) =
        some (-2209161600000 + (s : Int) * 86400000) := by
      simp only [timeClip]
      rw [qAbs_eq, if_neg]
      · simp only [ratTrunc, Rat.intCast_num, Rat.intCast_den]
        norm_num
      · rw [← Int.cast_abs]
        exact_mod_cast not_lt.mpr habs
    rw [hclip]
    have hdays : Int.ediv (-2209161600000 + (s : Int) * 86400000) 86400000 =
        -25569 + (s : Int) := by
      rw [show (-2209161600000 + (s : Int) * 86400000) = (-25569 + (s : Int)) * 86400000
        by ring]
      exact Int.mul_ediv_cancel _ (by norm_num)
    simp [getUTCCivil, hdays]
  · intro q h
    simp [excelSerialDateToYYYYMMDD, jsLeZero, h]
  · intro v hv
    cases v with
    | vNum n => exact absurd rfl (hv n)
    | vNull => rfl
    | vUndefined => rfl
    | vStr s => rfl
    | vBool b => rfl
    | vDate ms => rfl
  · intro q hq hbig
    rw [excelSerial_pos_eval _ hq]
    have hcl : timeClip (.num ((excelEpochMs : Rat) + q * 86400000)) = none := by
      simp only [timeClip]
      rw [qAbs_eq, if_pos]
      exact lt_of_lt_of_le hbig (le_abs_self _)
    rw [hcl]

/-- Claim C5 witness: serial 45292 is converted through the day-number
arithmetic of the claim. -/
theorem claim_C5_witness :
    excelSerialDateToYYYYMMDD (.vNum (.num ((45292 : Nat) : Rat))) =
      some (formatCivil (civilFromDays (-25569 + ((45292 : Nat) : Int)))) :=
  claim_C5_coerceDate.1 45292 (by decide) (by decide)
